import Mathlib

/-!
Verification of `src/agents/voice/realtime/tool_exec.py` (`ToolExecutor`).

The embedding models the Python values that flow through the dispatcher
(`PyValue`), the standard library functions the dispatcher calls
(`json.dumps` as `jsonDumps`, `str` as `pyStr`), and the dispatcher itself
(`makeToolExecutor` for `ToolExecutor.__init__`, `ToolExecutor.executeS`
for `ToolExecutor.execute`).  Raised exceptions are modelled with `Except`,
the exception's `str(e)` being the error payload.
-/

namespace ToolExec

set_option maxRecDepth 8192

/-- A Python runtime value, restricted to the shapes the dispatcher can
   meet: JSON scalars, lists, tuples, string-keyed dicts, and `vObj ty s`
   for any other object, where `ty` is its type name (used by the
   `json.dumps` failure message) and `s` its `str()` form. -/
inductive PyValue where
  | vNone : PyValue
  | vBool : Bool → PyValue
  | vInt : Int → PyValue
  | vStr : String → PyValue
  | vList : List PyValue → PyValue
  | vTuple : List PyValue → PyValue
  | vDict : List (String × PyValue) → PyValue
  | vObj : String → String → PyValue

/-- Four-digit lowercase hexadecimal, as in `json.dumps` escapes. -/
def hex4 (n : Nat) : String :=
  let d := fun (k : Nat) =>
    if k < 10 then Char.ofNat (48 + k) else Char.ofNat (87 + k)
  String.mk [d (n / 4096 % 16), d (n / 256 % 16), d (n / 16 % 16), d (n % 16)]

/-- Escape of one character inside a JSON string literal, following
   `json.dumps` with its default `ensure_ascii=True`. -/
def jsonEscapeChar (c : Char) : String :=
  if c = '\"' then "\\\""
  else if c = '\\' then "\\\\"
  else if c = '\n' then "\\n"
  else if c = '\t' then "\\t"
  else if c = '\r' then "\\r"
  else if c = '\x08' then "\\b"
  else if c = '\x0c' then "\\f"
  else if c.toNat < 0x20 then "\\u" ++ hex4 c.toNat
  else if c.toNat < 0x7f then String.singleton c
  else if c.toNat ≤ 0xffff then "\\u" ++ hex4 c.toNat
  else
    let v := c.toNat - 0x10000
    "\\u" ++ hex4 (0xd800 + v / 0x400) ++ "\\u" ++ hex4 (0xdc00 + v % 0x400)

/-- A JSON string literal for `s`, as produced by `json.dumps`. -/
def jsonQuote (s : String) : String :=
  "\"" ++ String.join (s.data.map jsonEscapeChar) ++ "\""

/-- The `TypeError` message `json.dumps` raises on a non-serializable
   object of type `ty`. -/
def notSerializableMsg (ty : String) : String :=
  "Object of type " ++ ty ++ " is not JSON serializable"

mutual

/-- Model of `json.dumps` with default separators: `.ok` is the encoded
   string, `.error` carries the `TypeError` message raised on the first
   non-serializable value met. -/
def jsonDumps : PyValue → Except String String
  | .vNone => .ok "null"
  | .vBool b => .ok (cond b "true" "false")
  | .vInt n => .ok (toString n)
  | .vStr s => .ok (jsonQuote s)
  | .vList xs => do
      let ps ← jsonDumpsList xs
      pure ("[" ++ String.intercalate ", " ps ++ "]")
  | .vTuple xs => do
      let ps ← jsonDumpsList xs
      pure ("[" ++ String.intercalate ", " ps ++ "]")
  | .vDict kvs => do
      let ps ← jsonDumpsKVs kvs
      pure ("\x7b" ++ String.intercalate ", " ps ++ "\x7d")
  | .vObj ty _ => .error (notSerializableMsg ty)

/-- Encodes each list element in order, stopping at the first failure. -/
def jsonDumpsList : List PyValue → Except String (List String)
  | [] => .ok []
  | v :: vs => do
      let s ← jsonDumps v
      let ss ← jsonDumpsList vs
      pure (s :: ss)

/-- Encodes each dict entry in order as `"key": value`, stopping at the
   first failure. -/
def jsonDumpsKVs : List (String × PyValue) → Except String (List String)
  | [] => .ok []
  | (k, v) :: kvs => do
      let s ← jsonDumps v
      let ss ← jsonDumpsKVs kvs
      pure ((jsonQuote k ++ ": " ++ s) :: ss)

end

/-- Model of Python `repr` on a string: single-quoted with backslash
   escaping (exact for strings without double quotes or control
   characters). -/
def pyStrRepr (s : String) : String :=
  "\x27" ++ (s.replace "\\" "\\\\").replace "\x27" "\\\x27" ++ "\x27"

mutual

/-- Model of Python `repr` on the values of `PyValue`. -/
def pyRepr : PyValue → String
  | .vNone => "None"
  | .vBool b => cond b "True" "False"
  | .vInt n => toString n
  | .vStr s => pyStrRepr s
  | .vList xs => "[" ++ String.intercalate ", " (pyReprList xs) ++ "]"
  | .vTuple xs =>
      match pyReprList xs with
      | [r] => "(" ++ r ++ ",)"
      | rs => "(" ++ String.intercalate ", " rs ++ ")"
  | .vDict kvs => "\x7b" ++ String.intercalate ", " (pyReprKVs kvs) ++ "\x7d"
  | .vObj _ s => s

/-- `repr` of each element of a list. -/
def pyReprList : List PyValue → List String
  | [] => []
  | v :: vs => pyRepr v :: pyReprList vs

/-- `repr` of each dict entry, rendered `key: value`. -/
def pyReprKVs : List (String × PyValue) → List String
  | [] => []
  | (k, v) :: kvs => (pyStrRepr k ++ ": " ++ pyRepr v) :: pyReprKVs kvs

end

/-- Model of Python `str`: identity on strings, `repr` otherwise. -/
def pyStr : PyValue → String
  | .vStr s => s
  | v => pyRepr v

/-- True when the value is a `collections.abc.Sequence` in Python terms
   (list, tuple or str). -/
def isPySequence : PyValue → Bool
  | .vList _ => true
  | .vTuple _ => true
  | .vStr _ => true
  | _ => false

/-- Modelled from the spec: `RunContextWrapper` (imported from
   `run_context`, not under `src/`) is the context-carrier type; the
   dispatcher only builds `RunContextWrapper(context=self._shared_context)`,
   so a single `context` field suffices. -/
structure RunContextWrapper where
  context : PyValue

/-- The inspectable `function` attribute a `FunctionTool` may carry: it is
   either not callable, or a callable with a list of parameter names (what
   `inspect.signature(func).parameters.keys()` yields). -/
inductive FuncAttr where
  | notCallable : FuncAttr
  | callable : List String → FuncAttr
deriving DecidableEq, Repr

/-- Modelled from the spec: the `FunctionTool` variant (imported from
   `tool`, not under `src/`), restricted to what the dispatcher reads: its
   `name`, the optional dynamic `function` attribute probed with
   `hasattr`, and `on_invoke_tool`, an async callable taking an optional
   context wrapper plus the JSON arguments string, which either returns a
   value or raises (`.error` carries `str(e)`). -/
structure FunctionTool where
  name : String
  functionAttr : Option FuncAttr
  onInvokeTool : Option RunContextWrapper → String → Except String PyValue

/-- Modelled from the spec: the polymorphic `Tool` union (imported from
   `tool`, not under `src/`); the dispatcher only distinguishes
   `FunctionTool` from every other variant, of which it reads just `name`. -/
inductive Tool where
  | functionTool : FunctionTool → Tool
  | otherTool : String → Tool

/-- Modelled from the spec: `RealtimeEventToolCall` (imported from
   `.model`, not under `src/`): a tool name plus an arguments mapping. -/
structure RealtimeEventToolCall where
  tool_name : String
  arguments : List (String × PyValue)

/-- The state `ToolExecutor.__init__` builds: `_tool_map` (an
   insertion-ordered dict), `_shared_context` and `_context_aware_tools`
   (a set, kept as a duplicate-free list). -/
structure ToolExecutor where
  tool_map : List (String × FunctionTool)
  shared_context : PyValue
  context_aware_tools : List String

/-- Python dict lookup `d.get(k)` on an insertion-ordered association
   list. -/
def dictGet {α : Type} : List (String × α) → String → Option α
  | [], _ => none
  | (k2, v) :: rest, k => if k2 = k then some v else dictGet rest k

/-- Python dict assignment `d[k] = v`: updates the first (and only) entry
   with key `k` in place, else appends. -/
def dictInsert {α : Type} : List (String × α) → String → α → List (String × α)
  | [], k, v => [(k, v)]
  | (k2, v2) :: rest, k, v =>
      if k2 = k then (k2, v) :: rest else (k2, v2) :: dictInsert rest k v

/-- Python set insertion `s.add(n)` on a list-backed set. -/
def setAdd (s : List String) (n : String) : List String :=
  if n ∈ s then s else s ++ [n]

/-- The hardcoded allow-list of the name-based context-awareness
   fallback. -/
def hardcodedContextAware : List String :=
  ["greet_user_and_count", "get_user_details"]

/-- The context-awareness decision of the `__init__` loop body for one
   registered function tool: with an inspectable callable `function`
   attribute, mark the tool when its first parameter is named `context`
   (`if params and params[0] == "context"`); with a non-callable
   attribute, mark nothing; with no attribute, fall back to the
   hardcoded name allow-list. -/
def processAware (aware : List String) (ft : FunctionTool) : List String :=
  match ft.functionAttr with
  | some (.callable (p :: _)) =>
      if p = "context" then setAdd aware ft.name else aware
  | some (.callable []) => aware
  | some .notCallable => aware
  | none =>
      if ft.name ∈ hardcodedContextAware then setAdd aware ft.name else aware

/-- One iteration of the `for tool in tools` loop of
   `ToolExecutor.__init__`, acting on the pair
   `(_tool_map, _context_aware_tools)`: a function tool is registered
   under its name and its context-awareness decided; any other tool
   variant is skipped. -/
def processTool (st : List (String × FunctionTool) × List String) (t : Tool) :
    List (String × FunctionTool) × List String :=
  match t with
  | .otherTool _ => st
  | .functionTool ft => (dictInsert st.1 ft.name ft, processAware st.2 ft)

/-- `ToolExecutor.__init__(tools, shared_context)`. -/
def makeToolExecutor (tools : List Tool) (shared_context : PyValue) :
    ToolExecutor :=
  let st := tools.foldl processTool ([], [])
  ⟨st.1, shared_context, st.2⟩

/-- The tool-not-found message of `execute`. -/
def notFoundMsg (tool_name : String) : String :=
  "Tool \x27" ++ tool_name ++ "\x27 not found in ToolExecutor."

/-- The argument-serialization failure message of `execute`; `e` is the
   `TypeError` text. -/
def serializeFailMsg (tool_name e : String) : String :=
  "Failed to serialize arguments for tool \x27" ++ tool_name ++ "\x27: " ++ e

/-- `json.dumps(\x7b"error": msg, "tool_name": tool_name\x7d)`: the
   two-key error-object string every failure path returns.  On this input
   `json.dumps` cannot raise, so the `Except` is collapsed. -/
def errorJson (msg tool_name : String) : String :=
  (jsonDumps (.vDict [("error", .vStr msg), ("tool_name", .vStr tool_name)])).toOption.getD ""

/-- The context argument `execute` hands to `on_invoke_tool`:
   `RunContextWrapper(context=self._shared_context)` when the name is in
   `_context_aware_tools`, `None` otherwise. -/
def ToolExecutor.contextArg (ex : ToolExecutor) (tool_name : String) :
    Option RunContextWrapper :=
  if tool_name ∈ ex.context_aware_tools then some ⟨ex.shared_context⟩ else none

/-- The output-coercion step of `execute`, inside its `try` block: strings
   pass through, dicts and lists go through `json.dumps` (whose
   `TypeError` is caught by the same `except`), everything else through
   `str`. -/
def coerceOutput : PyValue → Except String String
  | .vStr s => .ok s
  | .vDict kvs => jsonDumps (.vDict kvs)
  | .vList xs => jsonDumps (.vList xs)
  | v => .ok (pyStr v)

/-- `ToolExecutor.execute(tool_call_event)` in state-passing form: the
   returned string together with the executor's state after the call (the
   method never assigns to `self`, which the second component records). -/
def ToolExecutor.executeS (ex : ToolExecutor) (ev : RealtimeEventToolCall) :
    String × ToolExecutor :=
  match dictGet ex.tool_map ev.tool_name with
  | none => (errorJson (notFoundMsg ev.tool_name) ev.tool_name, ex)
  | some tool =>
      match jsonDumps (.vDict ev.arguments) with
      | .error e => (errorJson (serializeFailMsg ev.tool_name e) ev.tool_name, ex)
      | .ok arguments_json =>
          match tool.onInvokeTool (ex.contextArg ev.tool_name) arguments_json with
          | .error e => (errorJson e ev.tool_name, ex)
          | .ok tool_output =>
              match coerceOutput tool_output with
              | .ok s => (s, ex)
              | .error e => (errorJson e ev.tool_name, ex)

/-- `ToolExecutor.execute`, result only. -/
def ToolExecutor.execute (ex : ToolExecutor) (ev : RealtimeEventToolCall) :
    String :=
  (ex.executeS ev).1

/-- True when a `function` attribute would make `__init__` mark its tool
   context-aware: a callable whose first parameter is named `context`. -/
def firstParamIsContext : FuncAttr → Bool
  | .callable (p :: _) => p = "context"
  | _ => false

/-- Test fixture: a function tool on the hardcoded allow-list with no
   `function` attribute, whose invocation reports whether it received a
   context wrapper. -/
def echoContextTool : FunctionTool :=
  ⟨"greet_user_and_count", none, fun c _ =>
    .ok (.vStr (match c with
      | some _ => "received-wrapper"
      | none => "received-none"))⟩

/-- Test fixture: the executor built from `echoContextTool` alone. -/
def fallbackExecutor : ToolExecutor :=
  makeToolExecutor [.functionTool echoContextTool] (.vStr "S")

/-- Test fixture: a function tool whose callable's first parameter is
   named `context`, reporting whether it received a context wrapper. -/
def ctxTool : FunctionTool :=
  ⟨"ctx_tool", some (.callable ["context", "x"]), fun c _ =>
    .ok (.vStr (match c with
      | some _ => "received-wrapper"
      | none => "received-none"))⟩

/-- Test fixture: a function tool whose callable's parameters are
   `(x, y)`, reporting whether it received a context wrapper. -/
def plainTool : FunctionTool :=
  ⟨"plain_tool", some (.callable ["x", "y"]), fun c _ =>
    .ok (.vStr (match c with
      | some _ => "received-wrapper"
      | none => "received-none"))⟩

/-- Test fixture: the executor built from `ctxTool` and `plainTool`. -/
def pairExecutor : ToolExecutor :=
  makeToolExecutor [.functionTool ctxTool, .functionTool plainTool] (.vStr "S")

/-- Test fixture: a function tool whose invocation raises `boom`. -/
def failingTool : FunctionTool :=
  ⟨"boom_tool", some (.callable ["x"]), fun _ _ => .error "boom"⟩

/-- Test fixture: the executor built from `failingTool` alone. -/
def failingExecutor : ToolExecutor :=
  makeToolExecutor [.functionTool failingTool] .vNone

/-- Test fixture: a function tool whose invocation succeeds with a plain
   string. -/
def okTool : FunctionTool :=
  ⟨"ok_tool", some (.callable ["x"]), fun _ _ => .ok (.vStr "fine")⟩

/-- Test fixture: the executor built from `okTool` alone. -/
def okExecutor : ToolExecutor :=
  makeToolExecutor [.functionTool okTool] .vNone

/-- Test fixture: a function tool whose output is the tuple `(1, 2)`. -/
def tupleTool : FunctionTool :=
  ⟨"tuple_tool", some (.callable ["x"]), fun _ _ =>
    .ok (.vTuple [.vInt 1, .vInt 2])⟩

/-- Test fixture: the executor built from `tupleTool` alone. -/
def tupleExecutor : ToolExecutor :=
  makeToolExecutor [.functionTool tupleTool] .vNone

/-- Test fixture: a function tool whose output is the dict
   `\x7b"count": 3\x7d`. -/
def dictTool : FunctionTool :=
  ⟨"dict_tool", some (.callable ["x"]), fun _ _ =>
    .ok (.vDict [("count", .vInt 3)])⟩

/-- Test fixture: the executor built from `dictTool` alone. -/
def dictExecutor : ToolExecutor :=
  makeToolExecutor [.functionTool dictTool] .vNone

/-- Test fixture: a first tool named `dup`, answering `first`. -/
def dupFirst : FunctionTool :=
  ⟨"dup", some (.callable ["x"]), fun _ _ => .ok (.vStr "first")⟩

/-- Test fixture: a second tool named `dup`, answering `second`. -/
def dupSecond : FunctionTool :=
  ⟨"dup", some (.callable ["x"]), fun _ _ => .ok (.vStr "second")⟩

/-- Test fixture: the executor built from `dupFirst` then `dupSecond`. -/
def dupExecutor : ToolExecutor :=
  makeToolExecutor [.functionTool dupFirst, .functionTool dupSecond] .vNone

/-- Test fixture: the executor built from a single non-function tool. -/
def otherExecutor : ToolExecutor :=
  makeToolExecutor [.otherTool "comp_tool"] .vNone

/-- Test fixture: an allow-listed tool whose `function` attribute exists
   but is not callable. -/
def notCallableTool : FunctionTool :=
  ⟨"greet_user_and_count", some .notCallable, fun _ _ => .ok (.vStr "fine")⟩

theorem dictGet_dictInsert_self {α : Type} (m : List (String × α)) (k : String)
    (v : α) : dictGet (dictInsert m k v) k = some v := by
  induction m with
  | nil => simp [dictInsert, dictGet]
  | cons hd tl ih =>
      obtain ⟨k2, v2⟩ := hd
      by_cases h : k2 = k
      · simp [dictInsert, dictGet, h]
      · simp [dictInsert, dictGet, h, ih]

theorem dictGet_dictInsert_ne {α : Type} (m : List (String × α)) (k k' : String)
    (v : α) (h : k' ≠ k) : dictGet (dictInsert m k v) k' = dictGet m k' := by
  induction m with
  | nil => simp [dictInsert, dictGet, Ne.symm h]
  | cons hd tl ih =>
      obtain ⟨k2, v2⟩ := hd
      by_cases h2 : k2 = k
      · subst h2
        simp [dictInsert, dictGet, Ne.symm h]
      · simp [dictInsert, dictGet, h2, ih]

theorem dictGet_dictInsert_isSome {α : Type} (m : List (String × α))
    (k k' : String) (v : α) (h : (dictGet m k').isSome = true) :
    (dictGet (dictInsert m k v) k').isSome = true := by
  by_cases he : k' = k
  · subst he
    simp [dictGet_dictInsert_self]
  · rwa [dictGet_dictInsert_ne m k k' v he]

theorem mem_setAdd_self (s : List String) (n : String) : n ∈ setAdd s n := by
  unfold setAdd
  split
  · assumption
  · simp

theorem mem_setAdd_of_mem (s : List String) (n n' : String) (h : n' ∈ s) :
    n' ∈ setAdd s n := by
  unfold setAdd
  split
  · exact h
  · simp [h]

theorem mem_of_mem_setAdd (s : List String) (n n' : String)
    (h : n' ∈ setAdd s n) : n' = n ∨ n' ∈ s := by
  unfold setAdd at h
  split at h
  · exact Or.inr h
  · rcases List.mem_append.mp h with h2 | h2
    · exact Or.inr h2
    · exact Or.inl (List.mem_singleton.mp h2)

theorem mem_processAware_of_mem (aware : List String) (ft : FunctionTool)
    (n : String) (h : n ∈ aware) : n ∈ processAware aware ft := by
  unfold processAware
  split
  · split
    · exact mem_setAdd_of_mem _ _ _ h
    · exact h
  · exact h
  · exact h
  · split
    · exact mem_setAdd_of_mem _ _ _ h
    · exact h

theorem mem_of_mem_processAware (aware : List String) (ft : FunctionTool)
    (n : String) (h : n ∈ processAware aware ft) : n = ft.name ∨ n ∈ aware := by
  unfold processAware at h
  split at h
  · split at h
    · exact mem_of_mem_setAdd _ _ _ h
    · exact Or.inr h
  · exact Or.inr h
  · exact Or.inr h
  · split at h
    · exact mem_of_mem_setAdd _ _ _ h
    · exact Or.inr h

theorem processTool_aware_mono
    (st : List (String × FunctionTool) × List String) (t : Tool) :
    st.2 ⊆ (processTool st t).2 := by
  intro x hx
  rcases t with ft | nm
  · exact mem_processAware_of_mem _ _ _ hx
  · exact hx

theorem foldl_processTool_aware_mono (l : List Tool)
    (st : List (String × FunctionTool) × List String) :
    st.2 ⊆ (List.foldl processTool st l).2 := by
  induction l generalizing st with
  | nil => exact fun x hx => hx
  | cons t ts ih =>
      intro x hx
      exact ih (processTool st t) (processTool_aware_mono st t hx)

theorem processTool_aware_subset_keys
    (st : List (String × FunctionTool) × List String) (t : Tool)
    (h : ∀ n ∈ st.2, (dictGet st.1 n).isSome = true) :
    ∀ n ∈ (processTool st t).2, (dictGet (processTool st t).1 n).isSome = true := by
  rcases t with ft | nm
  · intro n hn
    rcases mem_of_mem_processAware st.2 ft n hn with rfl | hmem
    · show (dictGet (dictInsert st.1 ft.name ft) ft.name).isSome = true
      simp [dictGet_dictInsert_self]
    · exact dictGet_dictInsert_isSome _ _ _ _ (h n hmem)
  · exact h

theorem foldl_processTool_aware_subset_keys (l : List Tool)
    (st : List (String × FunctionTool) × List String)
    (h : ∀ n ∈ st.2, (dictGet st.1 n).isSome = true) :
    ∀ n ∈ (List.foldl processTool st l).2,
      (dictGet (List.foldl processTool st l).1 n).isSome = true := by
  induction l generalizing st with
  | nil => exact h
  | cons t ts ih =>
      exact ih (processTool st t) (processTool_aware_subset_keys st t h)

theorem foldl_processTool_dictGet_preserve (l : List Tool)
    (st : List (String × FunctionTool) × List String) (n : String)
    (h : ∀ ft, Tool.functionTool ft ∈ l → ft.name ≠ n) :
    dictGet (List.foldl processTool st l).1 n = dictGet st.1 n := by
  induction l generalizing st with
  | nil => rfl
  | cons t ts ih =>
      have htail : ∀ ft, Tool.functionTool ft ∈ ts → ft.name ≠ n :=
        fun ft hm => h ft (List.mem_cons_of_mem t hm)
      rcases t with ft | nm
      · rw [List.foldl_cons, ih (processTool st (.functionTool ft)) htail]
        exact dictGet_dictInsert_ne st.1 ft.name n ft
          (fun e => h ft (List.mem_cons_self _ _) e.symm)
      · rw [List.foldl_cons]
        exact ih st htail

theorem errorJson_encodes (m n : String) :
    jsonDumps (.vDict [("error", .vStr m), ("tool_name", .vStr n)]) =
      .ok (errorJson m n) := rfl

theorem jsonDumpsKVs_error_of_mem (kvs : List (String × PyValue))
    (k ty s : String) (h : (k, PyValue.vObj ty s) ∈ kvs) :
    ∃ e, jsonDumpsKVs kvs = .error e := by
  induction kvs with
  | nil => cases h
  | cons hd tl ih =>
      obtain ⟨k0, v0⟩ := hd
      rcases hv : jsonDumps v0 with e0 | s0
      · refine ⟨e0, ?_⟩
        simp only [jsonDumpsKVs, hv]
        rfl
      · rcases List.mem_cons.mp h with heq | hmem
        · exfalso
          injection heq with h1 h2
          rw [← h2] at hv
          simp [jsonDumps] at hv
        · obtain ⟨e, he⟩ := ih hmem
          refine ⟨e, ?_⟩
          simp only [jsonDumpsKVs, hv, he]
          rfl

theorem executeS_not_found (ex : ToolExecutor) (ev : RealtimeEventToolCall)
    (h : dictGet ex.tool_map ev.tool_name = none) :
    ex.executeS ev = (errorJson (notFoundMsg ev.tool_name) ev.tool_name, ex) := by
  simp only [ToolExecutor.executeS, h]

theorem executeS_serialize_fail (ex : ToolExecutor)
    (ev : RealtimeEventToolCall) (tool : FunctionTool) (e : String)
    (hfind : dictGet ex.tool_map ev.tool_name = some tool)
    (hser : jsonDumps (.vDict ev.arguments) = .error e) :
    ex.executeS ev =
      (errorJson (serializeFailMsg ev.tool_name e) ev.tool_name, ex) := by
  simp only [ToolExecutor.executeS, hfind, hser]

theorem executeS_invoke_error (ex : ToolExecutor)
    (ev : RealtimeEventToolCall) (tool : FunctionTool) (aj e : String)
    (hfind : dictGet ex.tool_map ev.tool_name = some tool)
    (hser : jsonDumps (.vDict ev.arguments) = .ok aj)
    (hinv : tool.onInvokeTool (ex.contextArg ev.tool_name) aj = .error e) :
    ex.executeS ev = (errorJson e ev.tool_name, ex) := by
  simp only [ToolExecutor.executeS, hfind, hser, hinv]

theorem executeS_invoke_ok (ex : ToolExecutor)
    (ev : RealtimeEventToolCall) (tool : FunctionTool) (aj : String)
    (out : PyValue)
    (hfind : dictGet ex.tool_map ev.tool_name = some tool)
    (hser : jsonDumps (.vDict ev.arguments) = .ok aj)
    (hinv : tool.onInvokeTool (ex.contextArg ev.tool_name) aj = .ok out) :
    ex.executeS ev =
      (match coerceOutput out with
        | .ok s => (s, ex)
        | .error e => (errorJson e ev.tool_name, ex)) := by
  simp only [ToolExecutor.executeS, hfind, hser, hinv]

/-- C1: for every tool-call event whose tool name is not a key of the
   registry, `execute` returns (never raises: the embedding is total) the
   string produced by successfully JSON-encoding the object with exactly
   the two keys `error` (the not-found message, a string) and `tool_name`
   (the requested name). -/
theorem claim_C1_unknown_tool_yields_two_key_error_object
    (ex : ToolExecutor) (ev : RealtimeEventToolCall)
    (h : dictGet ex.tool_map ev.tool_name = none) :
    jsonDumps (.vDict [("error", .vStr (notFoundMsg ev.tool_name)),
        ("tool_name", .vStr ev.tool_name)]) = .ok (ex.execute ev) := by
  unfold ToolExecutor.execute
  rw [executeS_not_found ex ev h]
  exact errorJson_encodes _ _

/-- C1 witness: an executor with no tools, asked for `missing_tool`. -/
theorem claim_C1_witness :
    dictGet (makeToolExecutor [] PyValue.vNone).tool_map "missing_tool" = none
    ∧ jsonDumps (.vDict [("error", .vStr (notFoundMsg "missing_tool")),
        ("tool_name", .vStr "missing_tool")]) =
      .ok ((makeToolExecutor [] PyValue.vNone).execute ⟨"missing_tool", []⟩) :=
  ⟨rfl, claim_C1_unknown_tool_yields_two_key_error_object
    (makeToolExecutor [] PyValue.vNone) ⟨"missing_tool", []⟩ rfl⟩

/-- C2: for a registered tool whose invocation raises, `execute` catches
   the exception and returns the two-key error-object string (`errorJson`
   is exactly the JSON encoding of that object, by `errorJson_encodes`)
   carrying the exception's message; likewise an exception raised during
   result coercion (JSON-encoding a dict or list output) is caught by the
   same handler.  The embedding of `execute` is a total function, so no
   exception propagates on any path. -/
theorem claim_C2_invocation_failure_is_caught
    (ex : ToolExecutor) (tool : FunctionTool) (ev : RealtimeEventToolCall)
    (aj : String)
    (hfind : dictGet ex.tool_map ev.tool_name = some tool)
    (hser : jsonDumps (.vDict ev.arguments) = .ok aj) :
    (∀ e, tool.onInvokeTool (ex.contextArg ev.tool_name) aj = .error e →
        ex.execute ev = errorJson e ev.tool_name)
    ∧ (∀ out e, tool.onInvokeTool (ex.contextArg ev.tool_name) aj = .ok out →
        coerceOutput out = .error e →
        ex.execute ev = errorJson e ev.tool_name) := by
  constructor
  · intro e hinv
    unfold ToolExecutor.execute
    rw [executeS_invoke_error ex ev tool aj e hfind hser hinv]
  · intro out e hinv hco
    unfold ToolExecutor.execute
    rw [executeS_invoke_ok ex ev tool aj out hfind hser hinv, hco]

/-- C2 witness: the tool `boom_tool` raises `boom`; `execute` returns the
   error-object string for it. -/
theorem claim_C2_witness :
    failingExecutor.execute ⟨"boom_tool", []⟩ = errorJson "boom" "boom_tool" :=
  (claim_C2_invocation_failure_is_caught failingExecutor failingTool
    ⟨"boom_tool", []⟩ "\x7b\x7d" rfl rfl).1 "boom" rfl

/-- C3: for a registered tool called with an arguments mapping that
   contains a non-JSON-serializable value, `json.dumps` raises and
   `execute` returns (never raises) the two-key error-object string
   describing the serialization failure. -/
theorem claim_C3_nonserializable_arguments_yield_error_object
    (ex : ToolExecutor) (tool : FunctionTool) (ev : RealtimeEventToolCall)
    (k ty s : String)
    (hfind : dictGet ex.tool_map ev.tool_name = some tool)
    (hmem : (k, PyValue.vObj ty s) ∈ ev.arguments) :
    ∃ e, jsonDumps (.vDict ev.arguments) = .error e
      ∧ ex.execute ev = errorJson (serializeFailMsg ev.tool_name e) ev.tool_name := by
  obtain ⟨e, he⟩ := jsonDumpsKVs_error_of_mem ev.arguments k ty s hmem
  have hd : jsonDumps (.vDict ev.arguments) = .error e := by
    simp only [jsonDumps, he]
    rfl
  refine ⟨e, hd, ?_⟩
  unfold ToolExecutor.execute
  rw [executeS_serialize_fail ex ev tool e hfind hd]

/-- C3 witness: `ok_tool` called with an argument holding a plain object;
   `execute` returns the serialization-failure error object. -/
theorem claim_C3_witness :
    okExecutor.execute ⟨"ok_tool", [("x", .vObj "object" "<obj>")]⟩ =
      errorJson (serializeFailMsg "ok_tool" (notSerializableMsg "object"))
        "ok_tool" := by
  obtain ⟨e, he, hex⟩ :=
    claim_C3_nonserializable_arguments_yield_error_object okExecutor okTool
      ⟨"ok_tool", [("x", .vObj "object" "<obj>")]⟩ "x" "object" "<obj>" rfl
      (List.mem_cons_self _ _)
  have hval : jsonDumps (.vDict [("x", PyValue.vObj "object" "<obj>")]) =
      Except.error (notSerializableMsg "object") := rfl
  rw [hval] at he
  injection he with h
  rw [← h] at hex
  exact hex

/-- C4 counterexample: the claim says every registered tool whose
   inspectable callable's first parameter is not named `context` receives
   `None`; but `echoContextTool`, registered with no `function` attribute
   at all (so no callable parameter named `context`), is caught by the
   hardcoded name fallback and its invocation receives the shared context
   wrapped in `RunContextWrapper`, observably so. -/
theorem claim_C4_counterexample :
    (dictGet fallbackExecutor.tool_map "greet_user_and_count").isSome = true
    ∧ echoContextTool.functionAttr = none
    ∧ fallbackExecutor.contextArg "greet_user_and_count" =
        some ⟨.vStr "S"⟩
    ∧ fallbackExecutor.execute ⟨"greet_user_and_count", []⟩ =
        "received-wrapper"
    ∧ "received-wrapper" ≠ "received-none" :=
  ⟨rfl, rfl, rfl, rfl, by decide⟩

/-- C4 amended: a registered function tool whose inspectable callable's
   first parameter is named exactly `context` is in the context-awareness
   set; invocation passes the shared context wrapped in
   `RunContextWrapper` to exactly the tools whose names are in that set
   (which may also contain attribute-less tools admitted by the hardcoded
   name fallback, and names left behind by overwritten duplicates), and
   the no-context marker `none` to every other name. -/
theorem claim_C4_amended_context_passing (tools : List Tool) (c : PyValue) :
    (∀ ft rest, Tool.functionTool ft ∈ tools →
        ft.functionAttr = some (.callable ("context" :: rest)) →
        ft.name ∈ (makeToolExecutor tools c).context_aware_tools)
    ∧ (∀ n, n ∈ (makeToolExecutor tools c).context_aware_tools →
        (makeToolExecutor tools c).contextArg n = some ⟨c⟩)
    ∧ (∀ n, n ∉ (makeToolExecutor tools c).context_aware_tools →
        (makeToolExecutor tools c).contextArg n = none) := by
  refine ⟨?_, ?_, ?_⟩
  · intro ft rest hmem hattr
    obtain ⟨l1, l2, rfl⟩ := List.append_of_mem hmem
    show ft.name ∈
      (List.foldl processTool ([], []) (l1 ++ Tool.functionTool ft :: l2)).2
    rw [List.foldl_append, List.foldl_cons]
    refine foldl_processTool_aware_mono l2 _ ?_
    show ft.name ∈ processAware (List.foldl processTool ([], []) l1).2 ft
    unfold processAware
    rw [hattr]
    exact mem_setAdd_self _ _
  · intro n hn
    unfold ToolExecutor.contextArg
    rw [if_pos hn]
    rfl
  · intro n hn
    unfold ToolExecutor.contextArg
    rw [if_neg hn]

/-- C4 amended witness: with `ctxTool` (params `(context, x)`) and
   `plainTool` (params `(x, y)`), the first name is in the awareness set
   and gets the wrapped shared context, the second gets `none`. -/
theorem claim_C4_amended_witness :
    "ctx_tool" ∈ pairExecutor.context_aware_tools
    ∧ pairExecutor.contextArg "ctx_tool" = some ⟨.vStr "S"⟩
    ∧ pairExecutor.contextArg "plain_tool" = none := by
  obtain ⟨h1, h2, h3⟩ := claim_C4_amended_context_passing
    [.functionTool ctxTool, .functionTool plainTool] (.vStr "S")
  have hm : "ctx_tool" ∈ pairExecutor.context_aware_tools :=
    h1 ctxTool ["x"] (List.mem_cons_self _ _) rfl
  exact ⟨hm, h2 _ hm, h3 "plain_tool" (by decide)⟩

/-- C5 counterexample: the claim says a sequence output is returned in
   its JSON-encoded string form, but the tuple `(1, 2)` — a Python
   sequence whose JSON encoding is `[1, 2]` — is returned through `str`
   as `(1, 2)`, because the code only JSON-encodes `dict` and `list`. -/
theorem claim_C5_counterexample :
    tupleExecutor.execute ⟨"tuple_tool", []⟩ = "(1, 2)"
    ∧ isPySequence (.vTuple [.vInt 1, .vInt 2]) = true
    ∧ jsonDumps (.vTuple [.vInt 1, .vInt 2]) = .ok "[1, 2]"
    ∧ ("(1, 2)" : String) ≠ "[1, 2]" :=
  ⟨rfl, rfl, rfl, by decide⟩

/-- C5 amended: on a successful invocation, a string output is returned
   unchanged; a dict or list output is returned as its JSON-encoded
   string form when that encoding succeeds; every other output
   (including tuples and other non-dict/list sequences) is returned via
   Python's generic `str` conversion. -/
theorem claim_C5_amended_output_coercion
    (ex : ToolExecutor) (tool : FunctionTool) (ev : RealtimeEventToolCall)
    (aj : String) (out : PyValue)
    (hfind : dictGet ex.tool_map ev.tool_name = some tool)
    (hser : jsonDumps (.vDict ev.arguments) = .ok aj)
    (hinv : tool.onInvokeTool (ex.contextArg ev.tool_name) aj = .ok out) :
    (∀ s, out = .vStr s → ex.execute ev = s)
    ∧ (∀ kvs s, out = .vDict kvs → jsonDumps (.vDict kvs) = .ok s →
        ex.execute ev = s)
    ∧ (∀ xs s, out = .vList xs → jsonDumps (.vList xs) = .ok s →
        ex.execute ev = s)
    ∧ ((∀ s, out ≠ .vStr s) → (∀ kvs, out ≠ .vDict kvs) →
        (∀ xs, out ≠ .vList xs) → ex.execute ev = pyStr out) := by
  have hex : ex.execute ev =
      (match coerceOutput out with
        | .ok s => s
        | .error e => errorJson e ev.tool_name) := by
    unfold ToolExecutor.execute
    rw [executeS_invoke_ok ex ev tool aj out hfind hser hinv]
    rcases coerceOutput out with e | s
    · rfl
    · rfl
  refine ⟨?_, ?_, ?_, ?_⟩
  · intro s hout
    subst hout
    rw [hex]
    rfl
  · intro kvs s hout hjs
    subst hout
    rw [hex]
    show (match jsonDumps (.vDict kvs) with
        | .ok s => s
        | .error e => errorJson e ev.tool_name) = s
    rw [hjs]
  · intro xs s hout hjs
    subst hout
    rw [hex]
    show (match jsonDumps (.vList xs) with
        | .ok s => s
        | .error e => errorJson e ev.tool_name) = s
    rw [hjs]
  · intro hs hd hl
    rcases out with _ | b | n | s2 | xs | xs | kvs | ⟨ty, s2⟩
    · rw [hex]; rfl
    · rw [hex]; rfl
    · rw [hex]; rfl
    · exact absurd rfl (hs s2)
    · exact absurd rfl (hl xs)
    · rw [hex]; rfl
    · exact absurd rfl (hd kvs)
    · rw [hex]; rfl

/-- C5 amended witness: `dict_tool` outputs the dict with `count = 3`,
   and `execute` returns its JSON encoding. -/
theorem claim_C5_amended_witness :
    dictExecutor.execute ⟨"dict_tool", []⟩ = "\x7b\"count\": 3\x7d" :=
  (claim_C5_amended_output_coercion dictExecutor dictTool ⟨"dict_tool", []⟩
    "\x7b\x7d" (.vDict [("count", .vInt 3)]) rfl rfl rfl).2.1
    [("count", .vInt 3)] "\x7b\"count\": 3\x7d" rfl rfl

/-- C6: when the construction input is `l1 ++ [ft] ++ l2` and no function
   tool in `l2` shares `ft`'s name, the registry maps that name to `ft` —
   last write wins and duplicates are not rejected (construction is total
   on any input). -/
theorem claim_C6_duplicate_names_last_write_wins
    (l1 l2 : List Tool) (ft : FunctionTool) (c : PyValue)
    (hlast : ∀ ft2, Tool.functionTool ft2 ∈ l2 → ft2.name ≠ ft.name) :
    dictGet (makeToolExecutor (l1 ++ Tool.functionTool ft :: l2) c).tool_map
      ft.name = some ft := by
  show dictGet
    (List.foldl processTool ([], []) (l1 ++ Tool.functionTool ft :: l2)).1
    ft.name = some ft
  rw [List.foldl_append, List.foldl_cons,
    foldl_processTool_dictGet_preserve l2 _ ft.name hlast]
  exact dictGet_dictInsert_self _ _ _

/-- C6 witness: two tools named `dup`; the registry holds the second and
   `execute` reaches it. -/
theorem claim_C6_witness :
    dictGet dupExecutor.tool_map "dup" = some dupSecond
    ∧ dupExecutor.execute ⟨"dup", []⟩ = "second" := by
  constructor
  · exact claim_C6_duplicate_names_last_write_wins
      [.functionTool dupFirst] [] dupSecond .vNone
      (fun ft2 h => absurd h (List.not_mem_nil _))
  · rfl

/-- C7: a non-function tool is skipped by the construction loop without
   error (the loop body is the identity on it), and when no function tool
   carries a name, that name is not a registry key and `execute` on it
   returns the tool-not-found error-object string. -/
theorem claim_C7_non_function_tools_ignored
    (tools : List Tool) (c : PyValue) (n : String)
    (args : List (String × PyValue)) :
    (∀ st nm, processTool st (.otherTool nm) = st)
    ∧ ((∀ ft, Tool.functionTool ft ∈ tools → ft.name ≠ n) →
        dictGet (makeToolExecutor tools c).tool_map n = none
        ∧ jsonDumps (.vDict [("error", .vStr (notFoundMsg n)),
            ("tool_name", .vStr n)]) =
          .ok ((makeToolExecutor tools c).execute ⟨n, args⟩)) := by
  refine ⟨fun st nm => rfl, fun h => ?_⟩
  have hnone : dictGet (makeToolExecutor tools c).tool_map n = none := by
    show dictGet (List.foldl processTool ([], []) tools).1 n = none
    rw [foldl_processTool_dictGet_preserve tools ([], []) n h]
    rfl
  refine ⟨hnone, ?_⟩
  unfold ToolExecutor.execute
  rw [executeS_not_found (makeToolExecutor tools c) ⟨n, args⟩ hnone]
  exact errorJson_encodes _ _

/-- C7 witness: an executor built from one non-function tool named
   `comp_tool`; that name is unregistered and `execute` answers
   tool-not-found. -/
theorem claim_C7_witness :
    dictGet otherExecutor.tool_map "comp_tool" = none
    ∧ otherExecutor.execute ⟨"comp_tool", []⟩ =
        errorJson (notFoundMsg "comp_tool") "comp_tool" := by
  obtain ⟨-, h2⟩ := claim_C7_non_function_tools_ignored
    [.otherTool "comp_tool"] .vNone "comp_tool" []
  obtain ⟨hn, -⟩ := h2 (fun ft hm => by cases List.mem_singleton.mp hm)
  exact ⟨hn, rfl⟩

/-- C8: `execute` leaves the executor unchanged on every path — the
   registry, the context-awareness set and the shared context after the
   call are those before it. -/
theorem claim_C8_execute_preserves_state
    (ex : ToolExecutor) (ev : RealtimeEventToolCall) :
    (ex.executeS ev).2.tool_map = ex.tool_map
    ∧ (ex.executeS ev).2.context_aware_tools = ex.context_aware_tools
    ∧ (ex.executeS ev).2.shared_context = ex.shared_context := by
  have h : (ex.executeS ev).2 = ex := by
    rcases hfind : dictGet ex.tool_map ev.tool_name with _ | tool
    · rw [executeS_not_found ex ev hfind]
    · rcases hser : jsonDumps (.vDict ev.arguments) with e | aj
      · rw [executeS_serialize_fail ex ev tool e hfind hser]
      · rcases hinv : tool.onInvokeTool (ex.contextArg ev.tool_name) aj
          with e | out
        · rw [executeS_invoke_error ex ev tool aj e hfind hser hinv]
        · rw [executeS_invoke_ok ex ev tool aj out hfind hser hinv]
          rcases coerceOutput out with e | s
          · rfl
          · rfl
  exact ⟨by rw [h], by rw [h], by rw [h]⟩

/-- C9: after construction, every name in the context-awareness set is a
   key of the tool registry. -/
theorem claim_C9_aware_names_are_registered (tools : List Tool) (c : PyValue) :
    ∀ n ∈ (makeToolExecutor tools c).context_aware_tools,
      (dictGet (makeToolExecutor tools c).tool_map n).isSome = true := by
  intro n hn
  exact foldl_processTool_aware_subset_keys tools ([], [])
    (fun m hm => absurd hm (List.not_mem_nil m)) n hn

/-- C9 witness: `ctx_tool` is in the awareness set of `pairExecutor` and
   is a registry key. -/
theorem claim_C9_witness :
    (dictGet (makeToolExecutor
      [.functionTool ctxTool, .functionTool plainTool]
      (.vStr "S")).tool_map "ctx_tool").isSome = true :=
  claim_C9_aware_names_are_registered
    [.functionTool ctxTool, .functionTool plainTool] (.vStr "S") "ctx_tool"
    (by decide)

/-- C10: the hardcoded name fallback marks a registered function tool
   context-aware only when the tool has no `function` attribute at all;
   when the attribute exists but is not a callable whose first parameter
   is named `context`, the loop body leaves the awareness set untouched,
   allow-listed name or not. -/
theorem claim_C10_fallback_only_without_attribute
    (st : List (String × FunctionTool) × List String) (ft : FunctionTool) :
    (ft.functionAttr = none → ft.name ∈ hardcodedContextAware →
        ft.name ∈ (processTool st (.functionTool ft)).2)
    ∧ (∀ a, ft.functionAttr = some a → firstParamIsContext a = false →
        (processTool st (.functionTool ft)).2 = st.2) := by
  constructor
  · intro h1 h2
    show ft.name ∈ processAware st.2 ft
    unfold processAware
    rw [h1]
    show ft.name ∈
      (if ft.name ∈ hardcodedContextAware then setAdd st.2 ft.name else st.2)
    rw [if_pos h2]
    exact mem_setAdd_self _ _
  · intro a ha hfp
    show processAware st.2 ft = st.2
    unfold processAware
    rw [ha]
    rcases a with _ | ps
    · rfl
    · rcases ps with _ | ⟨p, rest⟩
      · rfl
      · have hp : ¬ p = "context" := by
          intro he
          rw [he] at hfp
          simp [firstParamIsContext] at hfp
        show (if p = "context" then setAdd st.2 ft.name else st.2) = st.2
        rw [if_neg hp]

/-- C10 witness: with an empty state, the attribute-less allow-listed
   `echoContextTool` is marked context-aware, while `notCallableTool`
   (same allow-listed name, non-callable attribute) marks nothing. -/
theorem claim_C10_witness :
    "greet_user_and_count" ∈
      (processTool ([], []) (.functionTool echoContextTool)).2
    ∧ (processTool ([], []) (.functionTool notCallableTool)).2 = [] :=
  ⟨(claim_C10_fallback_only_without_attribute ([], []) echoContextTool).1
      rfl (by decide),
    (claim_C10_fallback_only_without_attribute ([], []) notCallableTool).2
      .notCallable rfl rfl⟩

end ToolExec
